import Mathlib

/-
  A verification development for the SMIOL library (src/external/SMIOL/smiol.c
  of the MPAS-Model repository): a shallow embedding of the asynchronous
  writer loop, the DEFINE/DATA file state machine, the start/count builder,
  and the collective error protocol, with theorems checking the stated
  behaviour of each against the embedding.
-/

namespace SMIOL

/-- The SMIOL return codes (the `SMIOL_*` error enum used throughout smiol.c). -/
inductive Code
  | success
  | malloc_failure
  | invalid_argument
  | mpi_error
  | fortran_error
  | library_error
  | wrong_arg_type
  | insufficient_arg
  | async_error
deriving DecidableEq

/-! ## The asynchronous writer loop (`async_write`, smiol.c lines 2497-2581) -/

/-- An entry of the per-file asynchronous write queue (`struct
SMIOL_async_buffer`), restricted to the fields the writer loop consumes:
`bufId` stands for the `buf` pointer and `bufsize` for the `bufsize` member. -/
structure AsyncBuf where
  bufId : Nat
  bufsize : Nat
deriving DecidableEq

/-- Backend and memory events emitted by the writer loop:
`waitAll retired` is an `ncmpi_wait_all` over the current request table
(retiring the listed request ids), `bput req b` is an `ncmpi_bput_vara`
consuming buffer `b` and returning request id `req`, and `freeBuf b` is the
`free(async->buf)` call. -/
inductive WEvent
  | waitAll (retired : List Nat)
  | bput (req : Nat) (bufId : Nat)
  | freeBuf (bufId : Nat)
deriving DecidableEq

/-- The per-rank slice of `struct SMIOL_file` manipulated by `async_write`:
the queue, the outstanding non-blocking request table (request id paired with
the bufsize its buffered put copied into the attached buffer), the `active`
flag, and a counter numbering the requests handed out by `ncmpi_bput_vara`. -/
structure WriterRank where
  queue : List AsyncBuf
  pending : List (Nat × Nat)
  active : Bool
  nextReq : Nat
deriving DecidableEq

/-- `file->n_reqs`: the count of outstanding non-blocking requests. -/
def WriterRank.n_reqs (r : WriterRank) : Nat := r.pending.length

/-- The compile-time tunables of the writer: the number of I/O tasks recorded
in the context, `N_REQS` (512 in the source) and `BUFSIZE` (512 MiB in the
source). -/
structure WriterCfg where
  num_io_tasks : Nat
  NREQS : Nat
  BUFSIZE : Nat
deriving DecidableEq

/-- `SMIOL_async_queue_empty` as used on line 2525: 1 when the local queue has
no entries, 0 otherwise. -/
def emptyFlag (r : WriterRank) : Nat := if r.queue.isEmpty then 1 else 0

/-- The SUM all-reduce of the queue-emptiness flags across the I/O-task
communicator (line 2528). -/
def sumEmpty (ranks : List WriterRank) : Nat := (ranks.map emptyFlag).sum

/-- `SMIOL_async_queue_remove`: pop the head descriptor, or return none when
the queue is empty. -/
def queueRemove (r : WriterRank) : Option AsyncBuf × WriterRank :=
  match r.queue with
  | [] => (none, r)
  | d :: rest => (some d, { r with queue := rest })

/-- Lines 2534-2537 of `async_write`: in an agreeing round, pop the head
descriptor, and clear `active` when the pop returned null and no non-blocking
requests are outstanding. -/
def popPhase (r : WriterRank) : Option AsyncBuf × WriterRank :=
  match queueRemove r with
  | (none, r1) => (none, if r1.n_reqs = 0 then { r1 with active := false } else r1)
  | (some d, r1) => (some d, r1)

/-- Lines 2552-2555 of `async_write`: when the MAX-all-reduced prospective
buffer usage exceeds `BUFSIZE`, or the request table is full, issue a
collective `ncmpi_wait_all` over the current request table and reset the
outstanding-request count to zero. -/
def flushIfNeeded (cfg : WriterCfg) (maxUsage : Nat) (r : WriterRank) :
    WriterRank × List WEvent :=
  if cfg.BUFSIZE < maxUsage ∨ r.n_reqs = cfg.NREQS then
    ({ r with pending := [] }, [WEvent.waitAll (r.pending.map Prod.fst)])
  else (r, [])

/-- Lines 2545-2576 of `async_write`: the body run after an agreeing round.
For a popped descriptor, apply the back-pressure check, post the buffered
non-blocking write, record the returned request, and free the descriptor's
buffer; when nothing was popped but requests are outstanding, issue a
`wait_all` and zero the count. -/
def writeBody (cfg : WriterCfg) (maxUsage : Nat) (popped : Option AsyncBuf)
    (r : WriterRank) : WriterRank × List WEvent :=
  match popped with
  | some d =>
      let p := flushIfNeeded cfg maxUsage r
      let req := p.1.nextReq
      ({ p.1 with pending := p.1.pending ++ [(req, d.bufsize)], nextReq := req + 1 },
       p.2 ++ [WEvent.bput req d.bufId, WEvent.freeBuf d.bufId])
  | none =>
      if 0 < r.n_reqs then
        ({ r with pending := [] }, [WEvent.waitAll (r.pending.map Prod.fst)])
      else (r, [])

/-- Lines 2547-2551 of `async_write`: each rank that popped a descriptor adds
the descriptor's `bufsize` to the usage reported by `ncmpi_inq_buffer_usage`
(supplied per rank by `usages`, since the backend is external), and the
results are all-reduced with MAX across the I/O-task communicator. -/
def roundMaxUsage (usages : List Nat) (ranks : List WriterRank) : Nat :=
  (List.zipWith
    (fun r u =>
      match (popPhase r).1 with
      | some d => u + d.bufsize
      | none => 0) ranks usages).foldr max 0

/-- One iteration of the `while (file->active)` loop of `async_write`,
executed in lock-step by the writer threads of all I/O ranks (the MPI
collectives in the loop keep every rank in the same iteration). When the
summed emptiness flags are neither 0 nor `num_io_tasks` (line 2533/2541),
every rank releases the ticket lock and retries with nothing changed;
otherwise each rank pops and runs the write body. Returns the next per-rank
states and the per-rank event lists. -/
def writerIter (cfg : WriterCfg) (usages : List Nat) (ranks : List WriterRank) :
    List WriterRank × List (List WEvent) :=
  let se := sumEmpty ranks
  if se ≠ 0 ∧ se ≠ cfg.num_io_tasks then
    (ranks, ranks.map fun _ => [])
  else
    let m := roundMaxUsage usages ranks
    let results := ranks.map (fun r => writeBody cfg m (popPhase r).1 (popPhase r).2)
    (results.map Prod.fst, results.map Prod.snd)

/-- Iterate the writer loop until every rank has cleared its `active` flag or
the fuel runs out, concatenating the event lists of all ranks in order. -/
def writerRun (cfg : WriterCfg) (usages : List Nat) :
    Nat → List WriterRank → List WriterRank × List WEvent
  | 0, ranks => (ranks, [])
  | n + 1, ranks =>
      if ranks.all (fun r => !r.active) then (ranks, [])
      else
        let step := writerIter cfg usages ranks
        let rest := writerRun cfg usages n step.1
        (rest.1, step.2.flatten ++ rest.2)

/-- The ownership discipline asserted of a writer event trace: every
`freeBuf b` is preceded by a `waitAll` that retired a request posted by an
earlier `bput` consuming that same buffer `b`. -/
def freedOnlyAfterRetire (tr : List WEvent) : Bool :=
  (List.range tr.length).all fun j =>
    match tr[j]? with
    | some (WEvent.freeBuf b) =>
        (List.range j).any fun i =>
          match tr[i]? with
          | some (WEvent.waitAll retired) =>
              (List.range i).any fun k =>
                match tr[k]? with
                | some (WEvent.bput req b2) => b2 == b && retired.contains req
                | _ => false
          | _ => false
    | _ => true

/-! ## The DEFINE/DATA file state machine -/

/-- The two pnetcdf file states tracked in `file->state`
(`PNETCDF_DEFINE_MODE` and `PNETCDF_DATA_MODE`). -/
inductive PMode
  | defineMode
  | dataMode
deriving DecidableEq, Fintype

/-- The `mode` argument of `SMIOL_open_file`: a bitset with the
`SMIOL_FILE_CREATE`, `SMIOL_FILE_WRITE` and `SMIOL_FILE_READ` flags. -/
structure OpenMode where
  create : Bool
  write : Bool
  read : Bool
deriving DecidableEq

/-- Lines 344-381 of `SMIOL_open_file`: the initial pnetcdf state of the
file, following the source's if/else-if precedence over the mode bits; when
no flag is set the call fails with `SMIOL_INVALID_ARGUMENT` (none here). -/
def openInitialState (m : OpenMode) : Option PMode :=
  if m.create then some PMode.defineMode
  else if m.write then some PMode.dataMode
  else if m.read then some PMode.dataMode
  else none

/-- The API operations that touch the `file->state` machine. -/
inductive FileOp
  | defineDim
  | defineVar
  | defineAtt
  | putVar
  | getVar
  | syncFile
deriving DecidableEq, Fintype

/-- The backend mode-transition primitives (`ncmpi_redef`, `ncmpi_enddef`). -/
inductive ModeCall
  | redef
  | enddef
deriving DecidableEq, Fintype

/-- The metadata-writing operations of the API. -/
def isMetadataOp : FileOp → Bool
  | .defineDim | .defineVar | .defineAtt => true
  | .putVar | .getVar | .syncFile => false

/-- The slice common to `SMIOL_define_dim` (lines 629-640),
`SMIOL_define_var` (lines 871-882) and `SMIOL_define_att` (lines 1696-1707):
if the file is in data mode, switch it to define mode, emitting
`ncmpi_redef` on the I/O task. -/
def redefIfData (s : PMode) : PMode × List ModeCall :=
  match s with
  | PMode.dataMode => (PMode.defineMode, [ModeCall.redef])
  | PMode.defineMode => (PMode.defineMode, [])

/-- The slice common to `SMIOL_put_var` (lines 1228-1246), `SMIOL_get_var`
(lines 1460-1478) and `SMIOL_sync_file` (lines 1921-1932): if the file is in
define mode, switch it to data mode, emitting `ncmpi_enddef` on the I/O
task. -/
def enddefIfDefine (s : PMode) : PMode × List ModeCall :=
  match s with
  | PMode.defineMode => (PMode.dataMode, [ModeCall.enddef])
  | PMode.dataMode => (PMode.dataMode, [])

/-- The `file->state` transition performed by each API operation on its
success path, together with the backend mode calls it emits. -/
def modeStep : FileOp → PMode → PMode × List ModeCall
  | .defineDim, s => redefIfData s
  | .defineVar, s => redefIfData s
  | .defineAtt, s => redefIfData s
  | .putVar, s => enddefIfDefine s
  | .getVar, s => enddefIfDefine s
  | .syncFile, s => enddefIfDefine s

/-! ## The start/count builder (`build_start_count`, lines 2313-2482) -/

/-- The `io_start`/`io_count` fields of `struct SMIOL_decomp` read by
`build_start_count`. -/
structure DecompSC where
  io_start : Nat
  io_count : Nat
deriving DecidableEq

/-- The `write_or_read` flag values of `build_start_count`. -/
def START_COUNT_READ : Nat := 0

/-- The `write_or_read` flag value selecting the write path. -/
def START_COUNT_WRITE : Nat := 1

/-- The body of the loop on lines 2437-2477 of `build_start_count`: the
(start, count) entry for dimension `i` of length `dimlen`, given whether the
variable has an unlimited (record) dimension (always axis 0), the file's
current frame, the decomposition (none for a non-decomposed variable), the
direction flag and the rank in the file's context. The assignments mirror
the order of the source: default, record-dimension override, decomposed-axis
override, and the rank-nonzero write zeroing of count. -/
def startCountEntry (hasUnlim : Bool) (frame : Nat) (decomp : Option DecompSC)
    (writeOrRead : Nat) (commRank : Nat) (i : Nat) (dimlen : Nat) : Nat × Nat :=
  let sc : Nat × Nat := (0, dimlen)
  let sc := if hasUnlim = true ∧ i = 0 then (frame, 1) else sc
  let sc :=
    match decomp with
    | some d =>
        if (hasUnlim = false ∧ i = 0) ∨ (hasUnlim = true ∧ i = 1) then
          (d.io_start, d.io_count)
        else sc
    | none => sc
  if writeOrRead = START_COUNT_WRITE ∧ decomp = none ∧ commRank ≠ 0 then
    (sc.1, 0)
  else sc

/-- The loop of `build_start_count` over the dimension list, carrying the
running dimension index. -/
def buildSC (hasUnlim : Bool) (frame : Nat) (decomp : Option DecompSC)
    (writeOrRead : Nat) (commRank : Nat) : Nat → List Nat → List (Nat × Nat)
  | _, [] => []
  | i, len :: rest =>
      startCountEntry hasUnlim frame decomp writeOrRead commRank i len ::
        buildSC hasUnlim frame decomp writeOrRead commRank (i + 1) rest

/-- The `start[]` and `count[]` arrays produced by `build_start_count` for a
variable whose dimension sizes are `dimsizes`. -/
def buildStartCount (hasUnlim : Bool) (frame : Nat) (decomp : Option DecompSC)
    (writeOrRead : Nat) (commRank : Nat) (dimsizes : List Nat) :
    List Nat × List Nat :=
  let entries := buildSC hasUnlim frame decomp writeOrRead commRank 0 dimsizes
  (entries.map Prod.fst, entries.map Prod.snd)

/-! ## The control path of `SMIOL_get_var` (lines 1380-1616) -/

/-- Events of interest on the `SMIOL_get_var` control path: the metadata
inquiries of `build_start_count`, the `SMIOL_async_join_thread` on the
file's writer, a backend mode call, the `ncmpi_inq_varid` lookup, the
`ncmpi_get_vara_all` backend read, and an `MPI_Bcast` over the file's
I/O-group communicator. -/
inductive GEvent
  | inquireMeta
  | joinWriter
  | modeCall (c : ModeCall)
  | inqVarid
  | backendRead
  | bcastGroup
deriving DecidableEq

/-- The ordered event trace of one `SMIOL_get_var` call. `argsOk` is false
when the file or variable-name argument is null (lines 1399-1401), `bscOk`
records whether `build_start_count` succeeded, `st` is the file state on
entry, `enddefOk`/`inqOk`/`readOk` record the broadcast success of the
`ncmpi_enddef`, `ncmpi_inq_varid` and `ncmpi_get_vara_all` steps, and
`decomposed` whether a decomposition was passed. The writer join on line
1447 sits after `build_start_count` and before every later backend call. -/
def getVarTrace (argsOk bscOk : Bool) (st : PMode)
    (enddefOk inqOk readOk decomposed : Bool) : List GEvent :=
  if argsOk = false then []
  else if bscOk = false then [GEvent.inquireMeta]
  else
    [GEvent.inquireMeta, GEvent.joinWriter] ++
      (let pre :=
        if st = PMode.defineMode then
          [GEvent.modeCall ModeCall.enddef, GEvent.bcastGroup]
        else []
      if st = PMode.defineMode ∧ enddefOk = false then pre
      else
        pre ++ [GEvent.inqVarid, GEvent.bcastGroup] ++
          (if inqOk = false then []
           else
             [GEvent.backendRead, GEvent.bcastGroup] ++
               (if readOk = false then []
                else if decomposed then [] else [GEvent.bcastGroup])))

/-- Does every occurrence of `b` in the trace have an occurrence of `a`
strictly before it? -/
def precedesB (a b : GEvent) (tr : List GEvent) : Bool :=
  (List.range tr.length).all fun j =>
    if tr[j]? = some b then (List.range j).any fun i => tr[i]? = some a
    else true

/-! ## The collective error protocol (e.g. `SMIOL_define_dim` lines 642-650,
`SMIOL_sync_file` lines 1934-1942) -/

/-- The backend-library tag latched into the context
(`SMIOL_LIBRARY_UNKNOWN` / `SMIOL_LIBRARY_PNETCDF`). -/
inductive LibType
  | unknown
  | pnetcdf
deriving DecidableEq

/-- The latched backend error state of `struct SMIOL_context`. -/
structure Ctx where
  lib_type : LibType
  lib_ierr : Int
deriving DecidableEq

/-- The pnetcdf success code. -/
def NC_NOERR : Int := 0

/-- The collective error protocol used at the broadcast-checked call sites
of the API — the metadata and data paths (`SMIOL_define_dim` lines 642-650,
`SMIOL_define_var`, `SMIOL_define_att`, the inquire family, the var-id
lookups of `SMIOL_put_var` and `SMIOL_get_var`, `SMIOL_sync_file` lines
1934-1942, and `SMIOL_open_file` line 384): the I/O rank (rank 0 of the
I/O-group communicator) performs the call and its return code `ierr0` is
broadcast to every rank of the group; each rank then latches
`(SMIOL_LIBRARY_PNETCDF, ierr0)` into its context and returns
`SMIOL_LIBRARY_ERROR` when the code is not `NC_NOERR`, and returns success
otherwise. `ctxs` holds the per-rank contexts of the group. Not every
backend call goes through this protocol: `ncmpi_close` in
`SMIOL_close_file` is latched on the I/O rank only, with no broadcast (see
`closeFileRank`); the `ncmpi_buffer_attach` and `ncmpi_buffer_detach`
results are ignored (lines 352, 363, 552); and the writer's
`ncmpi_bput_vara`/`ncmpi_wait_all` errors are dropped (lines 2553-2574). -/
def groupErrorCheck (ierr0 : Int) (ctxs : List Ctx) : List (Ctx × Code) :=
  ctxs.map fun ctx =>
    if ierr0 ≠ NC_NOERR then
      ({ lib_type := LibType.pnetcdf, lib_ierr := ierr0 }, Code.library_error)
    else (ctx, Code.success)

/-- The backend-close step of `SMIOL_close_file` (lines 546-563), per rank
of the I/O group: only the I/O task calls `ncmpi_close`, and a failing
close is latched and returned as `SMIOL_LIBRARY_ERROR` on that rank alone —
the code is never broadcast, and every other rank of the group falls
through to `SMIOL_SUCCESS` (line 568) with its context untouched. -/
def closeFileRank (ioTask : Bool) (ctx : Ctx) (errClose : Int) : Ctx × Code :=
  if ioTask then
    if errClose ≠ NC_NOERR then
      ({ lib_type := LibType.pnetcdf, lib_ierr := errClose }, Code.library_error)
    else (ctx, Code.success)
  else (ctx, Code.success)

/-- The backend-close step of `SMIOL_close_file` across an I/O group: rank
0 of the I/O-group communicator is the I/O task. -/
def closeFileGroup (errClose : Int) (ctxs : List Ctx) : List (Ctx × Code) :=
  ctxs.mapIdx (fun i ctx => closeFileRank (i == 0) ctx errClose)

/-! ## `SMIOL_free_decomp` (lines 2250-2275) -/

/-- The resources of `struct SMIOL_decomp` that `SMIOL_free_decomp`
releases, each represented by an identifier of the owned allocation;
`agg_comm_null` records whether the aggregation communicator is
`MPI_COMM_NULL`. -/
structure DecompRes where
  comp_list : Nat
  io_list : Nat
  agg_comm_null : Bool
  counts : Nat
  displs : Nat
deriving DecidableEq

/-- The release actions of `SMIOL_free_decomp`. -/
inductive FreeEvent
  | commFree
  | freeCounts (ptr : Nat)
  | freeDispls (ptr : Nat)
  | freeCompList (ptr : Nat)
  | freeIoList (ptr : Nat)
  | freeDecompStruct
deriving DecidableEq

/-- `SMIOL_free_decomp` with its pointer arguments shallowly embedded as
Option: the outer layer is the `decomp` handle pointer, the inner layer the
handle it points to. The function begins with `if ((*decomp) == NULL)`, so a
null handle pointer is dereferenced before any check and the call has no
defined result (none). A handle pointing to null returns success releasing
nothing; otherwise (lines 2260-2272) the aggregation communicator (when not
`MPI_COMM_NULL`), the `counts`/`displs` arrays — both only when compiled
with aggregation — and the two exchange tables are freed, the decomp struct
is freed, and the handle is nulled. -/
def SMIOL_free_decomp (aggregation : Bool) (decomp : Option (Option DecompRes)) :
    Option (Code × Option (Option DecompRes) × List FreeEvent) :=
  match decomp with
  | none => none
  | some none => some (Code.success, some none, [])
  | some (some d) =>
      let aggEvents :=
        if aggregation then
          (if d.agg_comm_null then [] else [FreeEvent.commFree]) ++
            [FreeEvent.freeCounts d.counts, FreeEvent.freeDispls d.displs]
        else []
      some (Code.success, some none,
        aggEvents ++ [FreeEvent.freeCompList d.comp_list,
          FreeEvent.freeIoList d.io_list, FreeEvent.freeDecompStruct])

/-! ## `SMIOL_inquire_dim` (lines 678-772) -/

/-- The observable actions of `SMIOL_inquire_dim`: stores through the
`dimsize` and `is_unlimited` output pointers, backend inquiries performed on
the I/O task, and `MPI_Bcast` calls over the I/O-group communicator. -/
inductive IEvent
  | writeDimsize (v : Int)
  | writeUnlim (v : Int)
  | backendCall
  | mpiBcast
deriving DecidableEq

/-- The default-value stores `SMIOL_inquire_dim` performs through its
non-null output pointers (lines 707-713) before consulting the backend:
`*dimsize = 0` and `*is_unlimited = 0`. -/
def inquireDimDefaults (dimsizeNull unlimNull : Bool) : List IEvent :=
  (if dimsizeNull then [] else [IEvent.writeDimsize 0]) ++
    (if unlimNull then [] else [IEvent.writeUnlim 0])

/-- The pnetcdf block of `SMIOL_inquire_dim` (lines 715-769): the
`ncmpi_inq_dimid` lookup with its error broadcast, then, for a non-null
`dimsize`, the `ncmpi_inq_dimlen` inquiry and the broadcast of its value,
then, for a non-null `is_unlimited`, the `ncmpi_inq_unlimdim` inquiry, the
broadcasts of the two dimension ids, and the store of the comparison
result. Backend errors are latched into the context. -/
def inquireDimBody (ctx : Ctx) (dimsizeNull unlimNull : Bool)
    (errDimid errDimlen errUnlim : Int) (len : Int) (isUnlimDim : Bool) :
    Code × Ctx × List IEvent :=
  let ev1 : List IEvent := [IEvent.backendCall, IEvent.mpiBcast]
  if errDimid ≠ NC_NOERR then
    (Code.library_error, { lib_type := LibType.pnetcdf, lib_ierr := errDimid },
      ev1 ++ [IEvent.writeDimsize (-1)])
  else
    let p2 :=
      if dimsizeNull then (true, ev1)
      else if errDimlen ≠ NC_NOERR then
        (false, ev1 ++ [IEvent.backendCall, IEvent.mpiBcast, IEvent.writeDimsize (-1)])
      else
        (true, ev1 ++ [IEvent.backendCall, IEvent.mpiBcast,
          IEvent.writeDimsize len, IEvent.mpiBcast])
    if p2.1 = false then
      (Code.library_error,
        { lib_type := LibType.pnetcdf, lib_ierr := errDimlen }, p2.2)
    else if unlimNull then (Code.success, ctx, p2.2)
    else if errUnlim ≠ NC_NOERR then
      (Code.library_error,
        { lib_type := LibType.pnetcdf, lib_ierr := errUnlim },
        p2.2 ++ [IEvent.backendCall, IEvent.mpiBcast])
    else
      (Code.success, ctx,
        p2.2 ++ [IEvent.backendCall, IEvent.mpiBcast, IEvent.mpiBcast,
          IEvent.mpiBcast, IEvent.writeUnlim (if isUnlimDim then 1 else 0)])

/-- `SMIOL_inquire_dim`. `fileNull`/`dimnameNull`/`dimsizeNull`/`unlimNull`
record which pointer arguments are null; `errDimid`, `errDimlen` and
`errUnlim` are the codes the backend returns on the I/O task for
`ncmpi_inq_dimid`, `ncmpi_inq_dimlen` and `ncmpi_inq_unlimdim`; `len` is the
inquired dimension length and `isUnlimDim` whether the inquired dimension id
equals the unlimited dimension id. Returns the SMIOL code, the context after
the call (latching backend errors), and the ordered action trace. The
argument checks (lines 689-705) come first, then the default stores, then
the backend block. -/
def SMIOL_inquire_dim (ctx : Ctx) (fileNull dimnameNull dimsizeNull unlimNull : Bool)
    (errDimid errDimlen errUnlim : Int) (len : Int) (isUnlimDim : Bool) :
    Code × Ctx × List IEvent :=
  if fileNull then (Code.invalid_argument, ctx, [])
  else if dimnameNull then (Code.invalid_argument, ctx, [])
  else if dimsizeNull ∧ unlimNull then (Code.invalid_argument, ctx, [])
  else
    let body := inquireDimBody ctx dimsizeNull unlimNull errDimid errDimlen
      errUnlim len isUnlimDim
    (body.1, body.2.1, inquireDimDefaults dimsizeNull unlimNull ++ body.2.2)

/-! ## Theorems -/

lemma emptyFlag_le_one (r : WriterRank) : emptyFlag r ≤ 1 := by
  unfold emptyFlag
  split <;> simp

lemma sumEmpty_le_length (ranks : List WriterRank) :
    sumEmpty ranks ≤ ranks.length := by
  induction ranks with
  | nil => simp [sumEmpty]
  | cons a l ih =>
      have := emptyFlag_le_one a
      simp only [sumEmpty, List.map_cons, List.sum_cons, List.length_cons] at *
      omega

lemma sumEmpty_eq_length_all_empty (ranks : List WriterRank)
    (h : sumEmpty ranks = ranks.length) : ∀ r ∈ ranks, r.queue = [] := by
  induction ranks with
  | nil => simp
  | cons a l ih =>
      have h1 := emptyFlag_le_one a
      have h2 := sumEmpty_le_length l
      simp only [sumEmpty, List.map_cons, List.sum_cons, List.length_cons] at h
      have ha : emptyFlag a = 1 := by
        simp only [sumEmpty] at h2
        omega
      have hl : sumEmpty l = l.length := by
        simp only [sumEmpty] at h2 ⊢
        omega
      intro r hr
      rcases List.mem_cons.mp hr with rfl | hr2
      · unfold emptyFlag at ha
        by_cases hq : r.queue.isEmpty
        · exact List.isEmpty_iff.mp hq
        · simp [hq] at ha
      · exact ih hl r hr2

lemma flushIfNeeded_active (cfg : WriterCfg) (m : Nat) (r : WriterRank) :
    (flushIfNeeded cfg m r).1.active = r.active := by
  unfold flushIfNeeded
  split <;> rfl

lemma writeBody_active (cfg : WriterCfg) (m : Nat) (popped : Option AsyncBuf)
    (r : WriterRank) : (writeBody cfg m popped r).1.active = r.active := by
  cases popped with
  | some d =>
      exact flushIfNeeded_active cfg m r
  | none =>
      simp only [writeBody]
      split <;> rfl

lemma writerIter_fst_getElem (cfg : WriterCfg) (usages : List Nat)
    (ranks : List WriterRank)
    (hagree : ¬(sumEmpty ranks ≠ 0 ∧ sumEmpty ranks ≠ cfg.num_io_tasks))
    (i : Nat) (hi : i < ranks.length) :
    (writerIter cfg usages ranks).1[i]? =
      some (writeBody cfg (roundMaxUsage usages ranks)
        (popPhase ranks[i]).1 (popPhase ranks[i]).2).1 := by
  unfold writerIter
  simp only [if_neg hagree]
  simp [List.getElem?_map, List.getElem?_eq_getElem, hi]

lemma writer_exit_drained_aux (cfg : WriterCfg) (usages : List Nat)
    (ranks : List WriterRank) (i : Nat) (hi : i < ranks.length)
    (hn : cfg.num_io_tasks = ranks.length) (r1 : WriterRank)
    (hact : ranks[i].active = true)
    (hstep : (writerIter cfg usages ranks).1[i]? = some r1)
    (hexit : r1.active = false) :
    ranks[i].queue = [] ∧ ranks[i].n_reqs = 0 ∧
      sumEmpty ranks = cfg.num_io_tasks ∧ (∀ r ∈ ranks, r.queue = []) ∧
      r1.queue = [] ∧ r1.n_reqs = 0 := by
  by_cases hagree : sumEmpty ranks ≠ 0 ∧ sumEmpty ranks ≠ cfg.num_io_tasks
  · unfold writerIter at hstep
    simp only [if_pos hagree] at hstep
    simp [List.getElem?_eq_getElem, hi] at hstep
    rw [← hstep, hact] at hexit
    exact absurd hexit (by simp)
  · have hget := writerIter_fst_getElem cfg usages ranks hagree i hi
    rw [hstep] at hget
    have hr1 : r1 = (writeBody cfg (roundMaxUsage usages ranks)
        (popPhase ranks[i]).1 (popPhase ranks[i]).2).1 := by
      exact Option.some.inj hget
    have hac : (popPhase ranks[i]).2.active = false := by
      rw [hr1, writeBody_active] at hexit
      exact hexit
    by_cases hq : ranks[i].queue = []
    · by_cases hz : ranks[i].pending.length = 0
      · have hzn : ranks[i].n_reqs = 0 := hz
        have hpop : popPhase ranks[i] =
            (none, { ranks[i] with active := false }) := by
          simp [popPhase, queueRemove, hq, WriterRank.n_reqs, hz]
        have hr1v : r1 = { ranks[i] with active := false } := by
          rw [hr1, hpop]
          simp [writeBody, WriterRank.n_reqs, hz]
        have hflag : emptyFlag ranks[i] = 1 := by
          simp [emptyFlag, hq]
        have hmem : emptyFlag ranks[i] ∈ ranks.map emptyFlag :=
          List.mem_map_of_mem emptyFlag (List.getElem_mem hi)
        have hpos2 : 1 ≤ sumEmpty ranks := by
          have := List.single_le_sum (fun x _ => Nat.zero_le x) _ hmem
          rw [hflag] at this
          exact this
        have hse : sumEmpty ranks = cfg.num_io_tasks := by
          rcases Decidable.not_and_iff_or_not.mp hagree with h | h
          · exact absurd (Decidable.not_not.mp h) (by omega)
          · exact Decidable.not_not.mp h
        refine ⟨hq, hzn, hse, ?_, ?_, ?_⟩
        · exact sumEmpty_eq_length_all_empty ranks (by rw [hse, hn])
        · rw [hr1v]
          simpa using hq
        · rw [hr1v]
          simpa [WriterRank.n_reqs] using hz
      · have hpop : (popPhase ranks[i]).2 = ranks[i] := by
          simp [popPhase, queueRemove, hq, WriterRank.n_reqs, hz]
        rw [hpop, hact] at hac
        exact absurd hac (by simp)
    · obtain ⟨d, rest, hq2⟩ := List.exists_cons_of_ne_nil hq
      have hpop : (popPhase ranks[i]).2.active = ranks[i].active := by
        simp [popPhase, queueRemove, hq2]
      rw [hpop, hact] at hac
      exact absurd hac (by simp)

/-- Claim C3: the async writer clears the file's `active` flag (and so
terminates its loop) only when the dequeue attempt returned null — the local
queue was empty, in a round in which all I/O ranks unanimously saw empty
queues — and the outstanding non-blocking request count is zero; it never
exits while the queue is non-empty or requests are outstanding. -/
theorem writer_exit_only_when_drained (cfg : WriterCfg) (usages : List Nat)
    (ranks : List WriterRank) (i : Nat) (hi : i < ranks.length)
    (hn : cfg.num_io_tasks = ranks.length) (r1 : WriterRank)
    (hact : ranks[i].active = true)
    (hstep : (writerIter cfg usages ranks).1[i]? = some r1)
    (hexit : r1.active = false) :
    ranks[i].queue = [] ∧ ranks[i].n_reqs = 0 ∧
      sumEmpty ranks = cfg.num_io_tasks ∧ (∀ r ∈ ranks, r.queue = []) ∧
      r1.queue = [] ∧ r1.n_reqs = 0 :=
  writer_exit_drained_aux cfg usages ranks i hi hn r1 hact hstep hexit

/-- A terminating round at a concrete input: one I/O task, empty queue, no
outstanding requests; the iteration clears `active` and the exit state is
drained. -/
theorem writer_exit_only_when_drained_witness :
    ([⟨[], [], true, 0⟩] : List WriterRank)[0].queue = [] ∧
      ([⟨[], [], true, 0⟩] : List WriterRank)[0].n_reqs = 0 ∧
      sumEmpty [⟨[], [], true, 0⟩] = (⟨1, 512, 1024⟩ : WriterCfg).num_io_tasks ∧
      (∀ r ∈ ([⟨[], [], true, 0⟩] : List WriterRank), r.queue = []) ∧
      (⟨[], [], false, 0⟩ : WriterRank).queue = [] ∧
      (⟨[], [], false, 0⟩ : WriterRank).n_reqs = 0 :=
  writer_exit_only_when_drained ⟨1, 512, 1024⟩ [0] [⟨[], [], true, 0⟩] 0
    (by decide) (by decide) ⟨[], [], false, 0⟩ (by decide) (by decide) (by decide)

/-- Claim C5 fails on the code: `SMIOL_get_var` (lines 1460-1478) also
performs the DEFINE-to-DATA transition and emits the backend `enddef`, so
the transition does not happen exactly on a data write or an explicit sync:
a `get_var` issued in DEFINE mode moves the file to DATA as well. -/
theorem getvar_enddef_counterexample :
    (modeStep FileOp.getVar PMode.defineMode).1 = PMode.dataMode ∧
    (modeStep FileOp.getVar PMode.defineMode).2 = [ModeCall.enddef] ∧
    isMetadataOp FileOp.getVar = false ∧
    FileOp.getVar ≠ FileOp.putVar ∧ FileOp.getVar ≠ FileOp.syncFile := by
  decide

/-- Claim C5 amended: the file mode is always one of DEFINE and DATA; a
newly created file starts in DEFINE and a file opened for write or read
starts in DATA; the mode changes DATA-to-DEFINE exactly on a metadata write
(`define_dim`, `define_var`, `define_att`) issued while in DATA, emitting
the backend `redef`, and DEFINE-to-DATA exactly on the first data access —
a data write, a read (`get_var`), or an explicit sync — issued while in
DEFINE, emitting the backend `enddef`. -/
theorem file_mode_state_machine (op : FileOp) (s : PMode) :
    ((s = PMode.dataMode ∧ (modeStep op s).1 = PMode.defineMode) ↔
      (s = PMode.dataMode ∧ isMetadataOp op = true)) ∧
    ((modeStep op s).2 = [ModeCall.redef] ↔
      (s = PMode.dataMode ∧ isMetadataOp op = true)) ∧
    ((s = PMode.defineMode ∧ (modeStep op s).1 = PMode.dataMode) ↔
      (s = PMode.defineMode ∧ isMetadataOp op = false)) ∧
    ((modeStep op s).2 = [ModeCall.enddef] ↔
      (s = PMode.defineMode ∧ isMetadataOp op = false)) ∧
    (∀ m : OpenMode, m.create = true →
      openInitialState m = some PMode.defineMode) ∧
    (∀ m : OpenMode, m.create = false → m.write = true ∨ m.read = true →
      openInitialState m = some PMode.dataMode) := by
  refine ⟨?_, ?_, ?_, ?_, ?_, ?_⟩
  · cases op <;> cases s <;> decide
  · cases op <;> cases s <;> decide
  · cases op <;> cases s <;> decide
  · cases op <;> cases s <;> decide
  · intro m hm
    simp [openInitialState, hm]
  · intro m hm hwr
    rcases hwr with hw | hr2
    · simp [openInitialState, hm, hw]
    · by_cases hw : m.write = true
      · simp [openInitialState, hm, hw]
      · simp at hw
        simp [openInitialState, hm, hw, hr2]

/-- The state machine at concrete inputs: `define_att` in DATA emits `redef`
and a file opened for write starts in DATA. -/
theorem file_mode_state_machine_witness :
    (modeStep FileOp.defineAtt PMode.dataMode).2 = [ModeCall.redef] ∧
    openInitialState ⟨false, true, false⟩ = some PMode.dataMode :=
  ⟨(file_mode_state_machine FileOp.defineAtt PMode.dataMode).2.1.mpr ⟨rfl, rfl⟩,
    (file_mode_state_machine FileOp.defineAtt PMode.dataMode).2.2.2.2.2
      ⟨false, true, false⟩ rfl (Or.inl rfl)⟩

lemma buildSC_getElem (hasUnlim : Bool) (frame : Nat) (decomp : Option DecompSC)
    (wor commRank : Nat) :
    ∀ (dims : List Nat) (i j : Nat), j < dims.length →
      (buildSC hasUnlim frame decomp wor commRank i dims)[j]? =
        some (startCountEntry hasUnlim frame decomp wor commRank (i + j)
          (dims.getD j 0)) := by
  intro dims
  induction dims with
  | nil =>
      intro i j h
      simp at h
  | cons a l ih =>
      intro i j h
      cases j with
      | zero => simp [buildSC]
      | succ j2 =>
          simp only [List.length_cons, Nat.succ_lt_succ_iff] at h
          have := ih (i + 1) j2 h
          simp only [buildSC, List.getElem?_cons_succ, List.getD_cons_succ]
          rw [this]
          congr 2
          omega

lemma buildStartCount_getElem (hasUnlim : Bool) (frame : Nat)
    (decomp : Option DecompSC) (wor commRank : Nat) (dims : List Nat)
    (i : Nat) (hi : i < dims.length) :
    (buildStartCount hasUnlim frame decomp wor commRank dims).1[i]? =
      some (startCountEntry hasUnlim frame decomp wor commRank i
        (dims.getD i 0)).1 ∧
    (buildStartCount hasUnlim frame decomp wor commRank dims).2[i]? =
      some (startCountEntry hasUnlim frame decomp wor commRank i
        (dims.getD i 0)).2 := by
  have h := buildSC_getElem hasUnlim frame decomp wor commRank dims 0 i hi
  rw [Nat.zero_add] at h
  constructor
  · simp only [buildStartCount, List.getElem?_map, h]
    rfl
  · simp only [buildStartCount, List.getElem?_map, h]
    rfl

/-- Claim C6: `build_start_count` gives every dimension `start = 0` and
`count = dimlen`; a variable with an unlimited (record) dimension has it as
axis 0 with `start = frame, count = 1`; with a decomposition, the
slowest-varying non-record dimension carries `(io_start, io_count)`; and a
non-decomposed write (`START_COUNT_WRITE` with a null decomp) zeroes every
count on ranks other than 0. -/
theorem build_start_count_entries (hasUnlim : Bool) (frame : Nat)
    (decomp : Option DecompSC) (wor commRank i : Nat) (dims : List Nat)
    (hi : i < dims.length) :
    (wor = START_COUNT_WRITE → decomp = none → commRank ≠ 0 →
      (buildStartCount hasUnlim frame decomp wor commRank dims).2[i]? = some 0) ∧
    (hasUnlim = true → i = 0 →
      (buildStartCount hasUnlim frame decomp wor commRank dims).1[i]? =
        some frame ∧
      (¬(wor = START_COUNT_WRITE ∧ decomp = none ∧ commRank ≠ 0) →
        (buildStartCount hasUnlim frame decomp wor commRank dims).2[i]? =
          some 1)) ∧
    (∀ d, decomp = some d →
      ((hasUnlim = false ∧ i = 0) ∨ (hasUnlim = true ∧ i = 1)) →
      (buildStartCount hasUnlim frame decomp wor commRank dims).1[i]? =
        some d.io_start ∧
      (buildStartCount hasUnlim frame decomp wor commRank dims).2[i]? =
        some d.io_count) ∧
    (¬(hasUnlim = true ∧ i = 0) →
      (∀ d, decomp = some d →
        ¬((hasUnlim = false ∧ i = 0) ∨ (hasUnlim = true ∧ i = 1))) →
      ¬(wor = START_COUNT_WRITE ∧ decomp = none ∧ commRank ≠ 0) →
      (buildStartCount hasUnlim frame decomp wor commRank dims).1[i]? =
        some 0 ∧
      (buildStartCount hasUnlim frame decomp wor commRank dims).2[i]? =
        some (dims.getD i 0)) := by
  obtain ⟨h1, h2⟩ :=
    buildStartCount_getElem hasUnlim frame decomp wor commRank dims i hi
  refine ⟨?_, ?_, ?_, ?_⟩
  · intro hw hd hr
    rw [h2]
    simp [startCountEntry, hw, hd, hr]
  · intro hu h0
    subst h0
    constructor
    · rw [h1]
      cases decomp with
      | none => simp [startCountEntry, hu, apply_ite Prod.fst]
      | some d => simp [startCountEntry, hu, apply_ite Prod.fst]
    · intro hno
      rw [h2]
      cases decomp with
      | none =>
          have hnw : ¬(wor = START_COUNT_WRITE ∧ ¬commRank = 0) := by
            intro hcon
            exact hno ⟨hcon.1, rfl, hcon.2⟩
          simp [startCountEntry, hu, hnw]
      | some d => simp [startCountEntry, hu]
  · intro d hd haxis
    subst hd
    rcases haxis with ⟨hu, h0⟩ | ⟨hu, h1x⟩
    · subst h0
      rw [h1, h2]
      simp [startCountEntry, hu]
    · subst h1x
      rw [h1, h2]
      simp [startCountEntry, hu]
  · intro hrec hdec hwz
    rw [h1, h2]
    cases decomp with
    | none =>
        have hnw : ¬(wor = START_COUNT_WRITE ∧ ¬commRank = 0) := by
          intro hcon
          exact hwz ⟨hcon.1, rfl, hcon.2⟩
        by_cases hu : hasUnlim = true
        · have h0 : ¬i = 0 := fun h => hrec ⟨hu, h⟩
          simp [startCountEntry, hu, h0, hnw]
        · simp only [Bool.not_eq_true] at hu
          simp [startCountEntry, hu, hnw]
    | some d =>
        have haxis := hdec d rfl
        by_cases hu : hasUnlim = true
        · have h0 : ¬i = 0 := fun h => hrec ⟨hu, h⟩
          have h1x : ¬i = 1 := fun h => haxis (Or.inr ⟨hu, h⟩)
          simp [startCountEntry, hu, h0, h1x]
        · simp only [Bool.not_eq_true] at hu
          have h0 : ¬i = 0 := fun h => haxis (Or.inl ⟨hu, h⟩)
          simp [startCountEntry, hu, h0]

/-- The builder at a concrete input: a record variable decomposed on axis 1
read with frame 3 and `(io_start, io_count) = (10, 5)`. -/
theorem build_start_count_entries_witness :
    (buildStartCount true 3 (some ⟨10, 5⟩) 0 2 [9, 40, 7]).1[1]? = some 10 ∧
    (buildStartCount true 3 (some ⟨10, 5⟩) 0 2 [9, 40, 7]).2[1]? = some 5 :=
  (build_start_count_entries true 3 (some ⟨10, 5⟩) 0 2 1 [9, 40, 7]
      (by decide)).2.2.1 ⟨10, 5⟩ rfl (Or.inr ⟨rfl, rfl⟩)

/-- Claim C7: `SMIOL_get_var` joins the writer thread before issuing the
backend read on every control path, and joining can only observe a writer
that exited its loop, which happens only with an empty queue and a zero
outstanding-request count — so every descriptor enqueued before the call has
had its backend put and the retiring `wait_all` completed before the read
is issued. -/
theorem getvar_synchronous_with_writer :
    (∀ (argsOk bscOk : Bool) (st : PMode) (enddefOk inqOk readOk decomposed : Bool),
      precedesB GEvent.joinWriter GEvent.backendRead
        (getVarTrace argsOk bscOk st enddefOk inqOk readOk decomposed) = true) ∧
    (∀ (cfg : WriterCfg) (usages : List Nat) (ranks : List WriterRank) (i : Nat)
      (hi : i < ranks.length), cfg.num_io_tasks = ranks.length →
      ∀ r1 : WriterRank, ranks[i].active = true →
        (writerIter cfg usages ranks).1[i]? = some r1 → r1.active = false →
        ranks[i].queue = [] ∧ ranks[i].n_reqs = 0 ∧
          r1.queue = [] ∧ r1.n_reqs = 0) := by
  constructor
  · decide
  · intro cfg usages ranks i hi hn r1 hact hstep hexit
    obtain ⟨a, b, _, _, c, d2⟩ :=
      writer_exit_drained_aux cfg usages ranks i hi hn r1 hact hstep hexit
    exact ⟨a, b, c, d2⟩

/-- The join-before-read ordering at a concrete input: a successful
non-decomposed read on a file in data mode. -/
theorem getvar_synchronous_with_writer_witness :
    precedesB GEvent.joinWriter GEvent.backendRead
      (getVarTrace true true PMode.dataMode true true true false) = true :=
  getvar_synchronous_with_writer.1 true true PMode.dataMode true true true false

/-- Claim C8 fails on the code: not every backend call made by the I/O
rank has its non-success code broadcast and latched group-wide. In
`SMIOL_close_file` (line 555) a failing `ncmpi_close` is latched only on
the I/O rank and never broadcast: on a two-rank I/O group with backend code
-33, rank 0 latches and returns `LIBRARY_ERROR` while rank 1 keeps an
untouched context and returns `SUCCESS` — the ranks do not make the same
success/failure decision. -/
theorem close_error_not_broadcast_counterexample :
    (-33 : Int) ≠ NC_NOERR ∧
    closeFileGroup (-33) [⟨LibType.unknown, 0⟩, ⟨LibType.unknown, 0⟩] =
      [(⟨LibType.pnetcdf, -33⟩, Code.library_error),
        (⟨LibType.unknown, 0⟩, Code.success)] ∧
    ¬(∀ p ∈ closeFileGroup (-33) [⟨LibType.unknown, 0⟩, ⟨LibType.unknown, 0⟩],
        p.1.lib_type = LibType.pnetcdf ∧ p.1.lib_ierr = -33 ∧
          p.2 = Code.library_error) := by
  refine ⟨by decide, by decide, ?_⟩
  intro hall
  have := hall (⟨LibType.unknown, 0⟩, Code.success) (by decide)
  exact absurd this.2.2 (by decide)

/-- Claim C8 amended: at the broadcast-checked call sites of the API (the
metadata and data paths — `define_dim`, `define_var`, `define_att`, the
inquire family, the var-id lookups of `put_var`/`get_var`, `sync_file`, and
`open_file`), whenever the backend call made by the I/O rank returns a
non-success code, that code is broadcast from the group leader to every
rank of the I/O-group communicator, every rank latches
`(SMIOL_LIBRARY_PNETCDF, code)` into its context, and every rank returns
`SMIOL_LIBRARY_ERROR`, so all ranks of the group make the same decision;
but `ncmpi_close` in `close_file` is latched only on the I/O rank with no
broadcast — the other ranks return `SUCCESS` with unchanged contexts (and
the `buffer_attach`/`buffer_detach` and writer `bput`/`wait_all` results
bypass error handling entirely). -/
theorem group_error_latch_scoped (ierr0 : Int) (ctxs : List Ctx)
    (herr : ierr0 ≠ NC_NOERR) :
    (groupErrorCheck ierr0 ctxs =
      ctxs.map (fun _ => (⟨LibType.pnetcdf, ierr0⟩, Code.library_error))) ∧
    (∀ ctx, closeFileRank true ctx ierr0 =
      (⟨LibType.pnetcdf, ierr0⟩, Code.library_error)) ∧
    (∀ ctx, closeFileRank false ctx ierr0 = (ctx, Code.success)) := by
  refine ⟨?_, ?_, ?_⟩
  · unfold groupErrorCheck
    simp [herr]
  · intro ctx
    simp [closeFileRank, herr]
  · intro ctx
    simp [closeFileRank]

/-- The amended protocol at a concrete input: backend code -33 latches on
both ranks of a protocol site, while the close path leaves a non-I/O rank
untouched and successful. -/
theorem group_error_latch_scoped_witness :
    groupErrorCheck (-33) [⟨LibType.unknown, 0⟩, ⟨LibType.unknown, 0⟩] =
      [(⟨LibType.pnetcdf, -33⟩, Code.library_error),
        (⟨LibType.pnetcdf, -33⟩, Code.library_error)] ∧
    closeFileRank false ⟨LibType.unknown, 0⟩ (-33) =
      (⟨LibType.unknown, 0⟩, Code.success) :=
  ⟨(group_error_latch_scoped (-33) [⟨LibType.unknown, 0⟩, ⟨LibType.unknown, 0⟩]
      (by decide)).1,
    (group_error_latch_scoped (-33) [⟨LibType.unknown, 0⟩, ⟨LibType.unknown, 0⟩]
      (by decide)).2.2 ⟨LibType.unknown, 0⟩⟩

/-- Claim C9 fails on the code: `SMIOL_free_decomp` begins with
`if ((*decomp) == NULL)`, dereferencing the handle pointer before any check,
so a call with a null handle pointer has no defined result at all — it does
not return `SMIOL_SUCCESS` as the claim states (compare `SMIOL_finalize`
and `SMIOL_close_file`, which test the outer pointer first). -/
theorem free_decomp_null_handle_counterexample :
    SMIOL_free_decomp false none = none ∧
    SMIOL_free_decomp true none = none ∧
    SMIOL_free_decomp false none ≠ some (Code.success, none, []) :=
  ⟨rfl, rfl, fun h => Option.noConfusion h⟩

/-- Claim C9 amended: `free_decomp` accepts a handle pointer pointing to a
null decomposition — such a call releases nothing, changes nothing and
returns `SMIOL_SUCCESS` — and for a non-null decomposition it frees both
exchange tables (and, under aggregation, the aggregation communicator when
it is not `MPI_COMM_NULL` and the counts/displs arrays) and nulls the
handle; a null handle pointer itself is dereferenced, not accepted. -/
theorem free_decomp_releases (agg : Bool) (d : DecompRes) :
    SMIOL_free_decomp agg (some none) = some (Code.success, some none, []) ∧
    (∃ evs, SMIOL_free_decomp agg (some (some d)) =
        some (Code.success, some none, evs) ∧
      FreeEvent.freeCompList d.comp_list ∈ evs ∧
      FreeEvent.freeIoList d.io_list ∈ evs ∧
      FreeEvent.freeDecompStruct ∈ evs ∧
      (agg = true → FreeEvent.freeCounts d.counts ∈ evs ∧
        FreeEvent.freeDispls d.displs ∈ evs ∧
        (d.agg_comm_null = false → FreeEvent.commFree ∈ evs))) := by
  constructor
  · cases agg <;> rfl
  · refine ⟨_, rfl, ?_, ?_, ?_, ?_⟩
    · cases agg <;> simp [SMIOL_free_decomp]
    · cases agg <;> simp [SMIOL_free_decomp]
    · cases agg <;> simp [SMIOL_free_decomp]
    · intro ha
      subst ha
      refine ⟨?_, ?_, ?_⟩
      · simp [SMIOL_free_decomp]
      · simp [SMIOL_free_decomp]
      · intro hn
        simp [SMIOL_free_decomp, hn]

/-- The amended release behaviour at a concrete input: freeing through a
handle that points to null succeeds and releases nothing. -/
theorem free_decomp_releases_witness :
    SMIOL_free_decomp true (some none) = some (Code.success, some none, []) :=
  (free_decomp_releases true ⟨1, 2, false, 3, 4⟩).1

/-- Claim C10: `SMIOL_inquire_dim` called with both output pointers null
returns `SMIOL_INVALID_ARGUMENT` immediately — before any backend call or
MPI communication, with the context unchanged and an empty action trace —
and when at least one output pointer is non-null (and the file and name are
valid), each non-null output pointer is pre-set to its default (`dimsize 0`,
`is_unlimited 0`) before the backend is consulted: the trace starts with the
default stores, which contain no backend or MPI action. -/
theorem inquire_dim_guard (ctx : Ctx)
    (fileNull dimnameNull dimsizeNull unlimNull : Bool)
    (errDimid errDimlen errUnlim len : Int) (isU : Bool) :
    (dimsizeNull = true → unlimNull = true →
      SMIOL_inquire_dim ctx fileNull dimnameNull dimsizeNull unlimNull
        errDimid errDimlen errUnlim len isU = (Code.invalid_argument, ctx, [])) ∧
    (fileNull = false → dimnameNull = false →
      ¬(dimsizeNull = true ∧ unlimNull = true) →
      (∃ rest, (SMIOL_inquire_dim ctx fileNull dimnameNull dimsizeNull unlimNull
          errDimid errDimlen errUnlim len isU).2.2 =
        inquireDimDefaults dimsizeNull unlimNull ++ rest) ∧
      IEvent.backendCall ∉ inquireDimDefaults dimsizeNull unlimNull ∧
      IEvent.mpiBcast ∉ inquireDimDefaults dimsizeNull unlimNull ∧
      (dimsizeNull = false →
        IEvent.writeDimsize 0 ∈ inquireDimDefaults dimsizeNull unlimNull) ∧
      (unlimNull = false →
        IEvent.writeUnlim 0 ∈ inquireDimDefaults dimsizeNull unlimNull)) := by
  constructor
  · intro h1 h2
    subst h1
    subst h2
    cases fileNull <;> cases dimnameNull <;> simp [SMIOL_inquire_dim]
  · intro hf hd hnn
    subst hf
    subst hd
    refine ⟨⟨(inquireDimBody ctx dimsizeNull unlimNull errDimid errDimlen
        errUnlim len isU).2.2, ?_⟩, ?_, ?_, ?_, ?_⟩
    · simp [SMIOL_inquire_dim, hnn]
    · cases dimsizeNull <;> cases unlimNull <;> simp [inquireDimDefaults]
    · cases dimsizeNull <;> cases unlimNull <;> simp [inquireDimDefaults]
    · intro h
      subst h
      cases unlimNull <;> simp [inquireDimDefaults]
    · intro h
      subst h
      cases dimsizeNull <;> simp [inquireDimDefaults]

/-- The argument guard at a concrete input: both output pointers null gives
`INVALID_ARGUMENT` with an empty trace and an unchanged context. -/
theorem inquire_dim_guard_witness :
    SMIOL_inquire_dim ⟨LibType.unknown, 0⟩ false false true true 7 8 9 4 false =
      (Code.invalid_argument, ⟨LibType.unknown, 0⟩, []) :=
  (inquire_dim_guard ⟨LibType.unknown, 0⟩ false false true true 7 8 9 4
      false).1 rfl rfl

/-- Claim C1: in every iteration of the async writer loop the local
queue-emptiness flag is SUM-all-reduced across the I/O-task communicator,
and when the result is neither 0 nor `num_io_tasks` no rank dequeues a
descriptor or issues any backend call in that iteration: every per-rank
state is unchanged and every rank's event list is empty, so descriptors are
dequeued and backend collectives issued only in rounds where all I/O ranks
agree on queue emptiness. -/
theorem writer_disagreement_no_progress (cfg : WriterCfg) (usages : List Nat)
    (ranks : List WriterRank)
    (h1 : sumEmpty ranks ≠ 0) (h2 : sumEmpty ranks ≠ cfg.num_io_tasks) :
    writerIter cfg usages ranks = (ranks, ranks.map fun _ => []) := by
  unfold writerIter
  simp [h1, h2]

/-- A disagreeing round at a concrete input: with two I/O tasks, one empty
and one non-empty queue, the iteration changes nothing and emits nothing. -/
theorem writer_disagreement_no_progress_witness :
    sumEmpty [⟨[], [], true, 0⟩, ⟨[⟨1, 8⟩], [], true, 0⟩] ≠ 0 ∧
    sumEmpty [⟨[], [], true, 0⟩, ⟨[⟨1, 8⟩], [], true, 0⟩] ≠
      (⟨2, 512, 1024⟩ : WriterCfg).num_io_tasks ∧
    writerIter ⟨2, 512, 1024⟩ [0, 0] [⟨[], [], true, 0⟩, ⟨[⟨1, 8⟩], [], true, 0⟩] =
      ([⟨[], [], true, 0⟩, ⟨[⟨1, 8⟩], [], true, 0⟩], [[], []]) :=
  ⟨by decide, by decide,
    writer_disagreement_no_progress ⟨2, 512, 1024⟩ [0, 0]
      [⟨[], [], true, 0⟩, ⟨[⟨1, 8⟩], [], true, 0⟩] (by decide) (by decide)⟩

/-- Claim C2: in every writer iteration that popped a descriptor, the
all-reduced prospective usage (`roundMaxUsage`, fed to the body as
`maxUsage`) is checked; when it exceeds `BUFSIZE` or the outstanding-request
count has reached `N_REQS`, a collective `wait_all` over the request table
is issued before the `bput_vara` and the count is reset to zero;
consequently the outstanding-request count never exceeds `N_REQS`. -/
theorem writer_backpressure (cfg : WriterCfg) (maxUsage : Nat) (d : AsyncBuf)
    (r : WriterRank) (hle : r.n_reqs ≤ cfg.NREQS) (hpos : 0 < cfg.NREQS) :
    ((cfg.BUFSIZE < maxUsage ∨ r.n_reqs = cfg.NREQS) →
      (flushIfNeeded cfg maxUsage r).1.n_reqs = 0 ∧
      (writeBody cfg maxUsage (some d) r).2 =
        WEvent.waitAll (r.pending.map Prod.fst) ::
          [WEvent.bput r.nextReq d.bufId, WEvent.freeBuf d.bufId]) ∧
    (¬(cfg.BUFSIZE < maxUsage ∨ r.n_reqs = cfg.NREQS) →
      (writeBody cfg maxUsage (some d) r).2 =
        [WEvent.bput r.nextReq d.bufId, WEvent.freeBuf d.bufId]) ∧
    (∀ popped, (writeBody cfg maxUsage popped r).1.n_reqs ≤ cfg.NREQS) := by
  simp only [WriterRank.n_reqs] at hle
  refine ⟨?_, ?_, ?_⟩
  · intro hc
    simp only [WriterRank.n_reqs] at hc
    simp [flushIfNeeded, writeBody, WriterRank.n_reqs, hc]
  · intro hc
    simp only [WriterRank.n_reqs] at hc
    simp [flushIfNeeded, writeBody, WriterRank.n_reqs, hc]
  · intro popped
    cases popped with
    | none =>
        by_cases h0 : 0 < r.pending.length
        · simp [writeBody, WriterRank.n_reqs, h0]
        · simp [writeBody, WriterRank.n_reqs, h0]
          omega
    | some d2 =>
        by_cases hc : cfg.BUFSIZE < maxUsage ∨ r.pending.length = cfg.NREQS
        · simp [writeBody, flushIfNeeded, WriterRank.n_reqs, hc]
          omega
        · have h1 : ¬cfg.BUFSIZE < maxUsage := fun h => hc (Or.inl h)
          have h2 : r.pending.length ≠ cfg.NREQS := fun h => hc (Or.inr h)
          simp [writeBody, flushIfNeeded, WriterRank.n_reqs, h1, h2]
          omega

/-- The back-pressure path at a concrete input: a full request table
(`N_REQS = 2`) forces a `wait_all` before the `bput_vara`. -/
theorem writer_backpressure_witness :
    (flushIfNeeded ⟨1, 2, 1024⟩ 10 ⟨[], [(0, 4), (1, 4)], true, 2⟩).1.n_reqs = 0 ∧
    (writeBody ⟨1, 2, 1024⟩ 10 (some ⟨7, 8⟩) ⟨[], [(0, 4), (1, 4)], true, 2⟩).2 =
      WEvent.waitAll [0, 1] :: [WEvent.bput 2 7, WEvent.freeBuf 7] :=
  (writer_backpressure ⟨1, 2, 1024⟩ 10 ⟨7, 8⟩ ⟨[], [(0, 4), (1, 4)], true, 2⟩
      (by decide) (by decide)).1 (Or.inr (by decide))

/-- Claim C4 fails on the code: `async_write` frees `async->buf` immediately
after `ncmpi_bput_vara` (line 2568), before the `wait_all` that retires the
request. With one I/O task, one enqueued descriptor (buffer 7, bufsize 100)
and an empty request table, the writer's event trace is
`bput, freeBuf, waitAll`: the buffer is freed before request 0 is retired. -/
theorem writer_free_before_waitall_counterexample :
    (writerRun ⟨1, 512, 1024⟩ [0] 5 [⟨[⟨7, 100⟩], [], true, 0⟩]).2 =
      [WEvent.bput 0 7, WEvent.freeBuf 7, WEvent.waitAll [0]] ∧
    freedOnlyAfterRetire
      (writerRun ⟨1, 512, 1024⟩ [0] 5 [⟨[⟨7, 100⟩], [], true, 0⟩]).2 = false := by
  decide

/-- Claim C4 amended: the descriptor owns its buffer after enqueue, and the
writer frees it in the same iteration as — and immediately after — the
`bput_vara` that consumed it (the buffered put has copied the data into the
attached buffer), before the `wait_all` that retires the request; the only
events preceding the `bput` in such an iteration are `wait_all`s over
previously posted requests. -/
theorem writer_frees_buffer_after_bput (cfg : WriterCfg) (maxUsage : Nat)
    (d : AsyncBuf) (r : WriterRank) :
    ∃ pre req, (writeBody cfg maxUsage (some d) r).2 =
        pre ++ [WEvent.bput req d.bufId, WEvent.freeBuf d.bufId] ∧
      ∀ e ∈ pre, ∃ l, e = WEvent.waitAll l := by
  by_cases hc : cfg.BUFSIZE < maxUsage ∨ r.n_reqs = cfg.NREQS
  · refine ⟨[WEvent.waitAll (r.pending.map Prod.fst)], r.nextReq, ?_, ?_⟩
    · simp [writeBody, flushIfNeeded, if_pos hc]
    · intro e he
      simp at he
      exact ⟨r.pending.map Prod.fst, he⟩
  · refine ⟨[], r.nextReq, ?_, ?_⟩
    · simp [writeBody, flushIfNeeded, if_neg hc]
    · intro e he
      simp at he

end SMIOL
